import Mathlib

/-!
Shallow embedding of the Monster Defender repository
(`MonsterDefender.py`, `sprites.py`, `image_lib.py`) and proofs about it.

Images, surfaces and sounds are represented by opaque identifiers (`Nat`);
pixel coordinates by `Int` or `Nat`; pygame `Vector2` components by `Rat`
or `Real` (real arithmetic idealises the floats; `Vector2.length` is a
square root, embedded with `Real.sqrt`).
-/

/-! ## sprites.py : ShootgingStrategy [sic], Bullet target acquisition -/

/-- `sprites.ShootgingStrategy` (source spelling). -/
inductive ShootgingStrategy
  | NO_TARGET
  | CLOSEST_X
  | CLOSEST_Y
  | CLOSEST_DISTANCE
  | RANDOM
deriving DecidableEq

/-- `pygame.Vector2(x, y).length()` for an integer-component vector. -/
noncomputable def vlen (v : ℤ × ℤ) : ℝ :=
  Real.sqrt ((v.1 : ℝ) ^ 2 + (v.2 : ℝ) ^ 2)

/-- Python `min(hd :: tl, key)`: the first element attaining the least key
(the accumulator is replaced only on a strictly smaller key). -/
noncomputable def pyMin {α β : Type} [LinearOrder β] (key : α → β) (hd : α) (tl : List α) : α :=
  tl.foldl (fun acc x => if key x < key acc then x else acc) hd

/-- `Bullet._find_target` (sprites.py lines 177-199).  A target sprite is
represented by its rect center; `held` is the current `self.target` slot,
`self_center` the bullet's center, `pool` is `self.targets.sprites()`.
Returns the new content of the target slot.  The `RANDOM` strategy has no
selection branch in the source, so the (empty) slot is left unchanged. -/
noncomputable def find_target (strat : ShootgingStrategy) (held : Option (ℤ × ℤ))
    (self_center : ℤ × ℤ) (pool : List (ℤ × ℤ)) : Option (ℤ × ℤ) :=
  if held.isSome then held
  else if strat = .NO_TARGET ∨ pool = [] then none
  else
    match pool with
    | [] => none
    | hd :: tl =>
      match strat with
      | .CLOSEST_X =>
        some (pyMin (fun s => |s.1 - self_center.1|) hd tl)
      | .CLOSEST_Y =>
        some (pyMin (fun s => |s.2 - self_center.2|) hd tl)
      | .CLOSEST_DISTANCE =>
        some (pyMin (fun s => vlen (s.1 - self_center.1, s.2 - self_center.2)) hd tl)
      | _ => none

/-! ## sprites.py : ShootingCapability.create_bullet spawn position -/

/-- The spawn position computed by `ShootingCapability.create_bullet`
(sprites.py lines 229-243): the given position, shifted left by the bullet
image's width when the requested direction has a negative horizontal
component.  This is the position stored in the new bullet's rect. -/
def create_bullet_position (image_width : ℕ) (position : ℤ × ℤ)
    (direction : ℚ × ℚ) : ℤ × ℤ :=
  if direction.1 < 0 then (position.1 - image_width, position.2) else position

/-! ## MonsterDefender.py : MainBoard.create_targets -/

/-- An axis-aligned `pygame.Rect`. -/
structure Rect where
  x : ℤ
  y : ℤ
  w : ℤ
  h : ℤ
deriving DecidableEq

/-- Modelled from the spec: the class `sprites.Target` is referenced by
`MainBoard.create_targets` but is not among the source files; §3 of the
spec describes it as "a falling entity: image, boundary, spawn position,
size, downward velocity; destroyed when hit by a bullet or when it leaves
the boundary".  Constructed as `Target(image, boundary, position, size,
velocity)` at the call site. -/
structure Target where
  image : ℕ
  boundary : Rect
  rect : Rect
  velocity : ℤ × ℤ
  kill_if_out_of_boundary : Bool
deriving DecidableEq

/-- Modelled from the spec: `Target(image, boundary, position, size,
velocity)`; its rect is anchored at `position` with the given size, and it
is destroyed when it leaves the boundary. -/
def Target.make (image : ℕ) (boundary : Rect) (position : ℤ × ℤ)
    (size : ℤ × ℤ) (velocity : ℤ × ℤ) : Target :=
  ⟨image, boundary, ⟨position.1, position.2, size.1, size.2⟩, velocity, true⟩

/-- `MainBoard.display_size` (1200, 800). -/
def display_size : ℤ × ℤ := (1200, 800)

/-- Identifier for the surface loaded from `image/targets/nectarine.png`. -/
def nectarine_image : ℕ := 0

/-- `MainBoard.create_targets` (MonsterDefender.py lines 98-109) as a
function of the three random draws of the frame: `r = random.randint(0, 70)`,
`x = random.randint(margin, display_size[0] - margin)` and
`v = random.randint(1, 5)`.  Returns the new `(targets, all_sprites)`
group contents. -/
def create_targets (r x v : ℕ) (targets all_sprites : List Target) :
    List Target × List Target :=
  if r ≠ 0 then (targets, all_sprites)
  else
    let margin : ℤ := 10
    let target := Target.make nectarine_image ⟨0, 0, display_size.1, display_size.2⟩
      ((x : ℤ), margin) (50, 50) (0, (v : ℤ))
    (targets ++ [target], all_sprites ++ [target])

/-! ## image_lib.py module attributes, MainCharacter.__init__ (C2) -/

/-- A Python exception, as data. -/
inductive PyErr
  | attributeError (moduleName attr : String)
  | nameError (name : String)
  | valueError
deriving DecidableEq

/-- The top-level names bound in module `image_lib` (image_lib.py lines
1-290): the imports `collections`, `os`, `pygame`, the three names imported
from `typing`, and the eight definitions.  No `images_from_file`. -/
def image_lib_attrs : List String :=
  ["collections", "os", "List", "Optional", "Tuple", "pygame",
   "ImageInfo", "Animator", "FilesAnimator", "SequenceAnimator",
   "SequenceAnimatorFactory", "split_image", "scale_image",
   "sequence_animator_factory_from_file"]

/-- Python attribute lookup on a module: `AttributeError` when the name is
not bound in the module. -/
def module_getattr (moduleName : String) (attrs : List String) (name : String) :
    Except PyErr String :=
  if name ∈ attrs then .ok name else .error (.attributeError moduleName name)

/-- `MainCharacter.__init__` (MonsterDefender.py lines 26-39).  Its first
effectful statement after `super().__init__()` and `size = (100, 100)` is
the call `image_lib.images_from_file(...)` at line 29, an attribute lookup
on module `image_lib`; the remaining statements (image slicing, rect and
boundary setup) run only if that lookup succeeds. -/
def main_character_init : Except PyErr Unit :=
  match module_getattr "image_lib" image_lib_attrs "images_from_file" with
  | .error e => .error e
  | .ok _ => .ok ()

/-- `MainBoard.__init__` (MonsterDefender.py lines 80-96): display setup,
icon and background loads (modelled as succeeding — the asset files are
assumed present, per §6 of the spec), then `MainCharacter(...)` at line 94;
any exception from it propagates. -/
def main_board_init : Except PyErr Unit :=
  main_character_init

/-- `main` (MonsterDefender.py lines 123-132): `pygame.init()`, then
`MainBoard()`, then the frame loop.  Returns the number of loop iterations
entered, or the propagated exception. -/
def game_main : Except PyErr ℕ :=
  match main_board_init with
  | .error e => .error e
  | .ok _ => .ok 0

/-! ## sprites.py : Bullet.change_to_direction (pygame vectors over ℝ) -/

/-- `pygame.Vector2(x, y).length()` for a real-component vector. -/
noncomputable def vec_length (v : ℝ × ℝ) : ℝ :=
  Real.sqrt (v.1 ^ 2 + v.2 ^ 2)

/-- `pygame.Vector2.scale_to_length(value)`: raises `ValueError` on a
zero-length vector, otherwise multiplies both components by
`value / length`. -/
noncomputable def scale_to_length (v : ℝ × ℝ) (value : ℝ) : Except PyErr (ℝ × ℝ) :=
  if vec_length v = 0 then .error .valueError
  else .ok (v.1 * (value / vec_length v), v.2 * (value / vec_length v))

/-- `Bullet.change_to_direction` (sprites.py lines 164-175): rescales the
new `direction` to the current velocity's length and stores it as the new
velocity; returns the stored velocity.  The conditional image rotation
(lines 170-172) does not touch the velocity and is not modelled. -/
noncomputable def change_to_direction (velocity direction : ℝ × ℝ) :
    Except PyErr (ℝ × ℝ) :=
  scale_to_length direction (vec_length velocity)

/-! ## Helper lemmas -/

lemma vec_length_eval (a b c : ℝ) (h : a ^ 2 + b ^ 2 = c ^ 2) (hc : 0 ≤ c) :
    vec_length (a, b) = c := by
  rw [vec_length]
  simp only
  rw [h, Real.sqrt_sq hc]

lemma vec_length_eq_zero_iff (v : ℝ × ℝ) : vec_length v = 0 ↔ v = (0, 0) := by
  rw [vec_length, Real.sqrt_eq_zero (by positivity), Prod.ext_iff]
  constructor
  · intro h
    have h1 : v.1 ^ 2 = 0 := le_antisymm (by nlinarith [sq_nonneg v.2]) (sq_nonneg v.1)
    have h2 : v.2 ^ 2 = 0 := le_antisymm (by nlinarith [sq_nonneg v.1]) (sq_nonneg v.2)
    exact ⟨sq_eq_zero_iff.mp h1, sq_eq_zero_iff.mp h2⟩
  · rintro ⟨h1, h2⟩
    rw [h1, h2]
    norm_num

lemma vlen_lt_vlen (v w : ℤ × ℤ) (h : v.1 ^ 2 + v.2 ^ 2 < w.1 ^ 2 + w.2 ^ 2) :
    vlen v < vlen w := by
  apply Real.sqrt_lt_sqrt (by positivity)
  exact_mod_cast h

lemma vlen_zero_zero : vlen (0, 0) = 0 := by
  simp [vlen]

/-! ## image_lib.py : FilesAnimator -/

/-- `image_lib.FilesAnimator` state.  Image files and loaded surfaces are
identifiers; `loops` is stored by `__init__` exactly as in the source. -/
structure FilesAnimator where
  image_files : List ℕ
  display_time : ℕ
  transition_time : ℕ
  loops : Option ℤ
  image : Option ℕ
  next_image : Option ℕ
  index : Option ℕ
  transition_index : Option ℕ
deriving DecidableEq

/-- `FilesAnimator.__init__` (image_lib.py lines 52-76). -/
def FilesAnimator.init (image_files : List ℕ) (display_time transition_time : ℕ)
    (loops : Option ℤ) : FilesAnimator :=
  ⟨image_files, display_time, transition_time, loops, none, none, none, none⟩

/-- `FilesAnimator.start` (lines 111-116): loads the first file (rescaling
is not tracked) and sets the frame counter to 0. -/
def FilesAnimator.start (s : FilesAnimator) : FilesAnimator :=
  { s with image := s.image_files.head?, index := some 0 }

/-- `FilesAnimator.update` (lines 118-137).  A started animator increments
its frame counter; every `display_time` frames it begins a transition to
file `index / display_time % len(image_files)`; otherwise a pending
transition advances and commits at `transition_time`.  (`update` on a
never-started animator is a `TypeError` in Python; modelled as a no-op,
unreachable in the claims.) -/
def FilesAnimator.update (s : FilesAnimator) : FilesAnimator :=
  match s.index with
  | none => s
  | some i0 =>
    let i := i0 + 1
    if i % s.display_time = 0 then
      let image_index := i / s.display_time % s.image_files.length
      { s with index := some i, next_image := s.image_files.get? image_index,
               transition_index := some 0 }
    else
      match s.transition_index with
      | none => { s with index := some i }
      | some ti0 =>
        let ti := ti0 + 1
        if s.transition_time ≤ ti then
          { s with index := some i, image := s.next_image, next_image := none,
                   transition_index := none }
        else
          { s with index := some i, transition_index := some ti }

/-! ## image_lib.py : SequenceAnimator and the bullet dying lifecycle -/

/-- `image_lib.SequenceAnimator` as used by a dying effect: `idx` is
`self._index` (`none` before `start`), `queue` holds the images not yet
taken from `self._images_iterator`, `img` is `self._image`. -/
structure SeqAnim where
  idx : Option ℤ
  interval : ℕ
  queue : List ℕ
  img : Option ℕ
deriving DecidableEq

/-- `SequenceAnimator.update` (image_lib.py lines 190-200).  The returned
flag records whether `self.owner.kill()` was called (iterator exhausted). -/
def SeqAnim.update (s : SeqAnim) : SeqAnim × Bool :=
  match s.idx with
  | none => (s, false)
  | some i0 =>
    let i := (i0 + 1) % (s.interval : ℤ)
    if i ≠ 0 then ({ s with idx := some i }, false)
    else
      match s.queue with
      | [] => ({ s with idx := some i, img := none }, true)
      | a :: q => ({ s with idx := some i, img := some a, queue := q }, false)

/-- `SequenceAnimator.start` (lines 185-188): set the index to -1, then
update once, so the first frame shows right away. -/
def SeqAnim.start (s : SeqAnim) : SeqAnim × Bool :=
  SeqAnim.update { s with idx := some (-1) }

/-- The `Bullet` state relevant to the dying-effect lifecycle: velocity,
whether the bullet is still in its sprite groups (`alive`), and the dying
effect's animator (`dying_effect.is_dying` is `anim.img.isSome`). -/
structure BulletDying where
  velocity : ℤ × ℤ
  alive : Bool
  anim : SeqAnim
deriving DecidableEq

/-- One `Bullet.update` (sprites.py lines 137-162) for a bullet configured
with a dying effect; `collide` abstracts whether `spritecollide` reports a
hit on this frame.  While `is_dying`, only the effect advances (its image
and rect adoption is not tracked) and a kill signal removes the bullet; on
a colliding frame the velocity is zeroed and `die_at` starts the animator
(which kills at once only on an empty sequence).  The target-seeking and
movement of a non-colliding, non-dying frame touch none of the modelled
fields except possibly the velocity and are left as the identity. -/
def bullet_update (collide : Bool) (b : BulletDying) : BulletDying :=
  if b.anim.img.isSome then
    let r := SeqAnim.update b.anim
    { b with anim := r.1, alive := b.alive && !r.2 }
  else if collide then
    let r := SeqAnim.start b.anim
    { velocity := (0, 0), alive := b.alive && !r.2, anim := r.1 }
  else b

/-! ## image_lib.py : split_image -/

/-- A tile produced by `split_image`, recorded by its source rect inside
the original image: `pygame.Rect(x, y, w, h)` at line 241. -/
structure SrcRect where
  x : ℕ
  y : ℕ
  w : ℕ
  h : ℕ
deriving DecidableEq

/-- Whether pixel `(px, py)` of the source image falls inside this tile's
source rect. -/
def SrcRect.contains_pt (r : SrcRect) (px py : ℕ) : Prop :=
  r.x ≤ px ∧ px < r.x + r.w ∧ r.y ≤ py ∧ py < r.y + r.h

instance (r : SrcRect) (px py : ℕ) : Decidable (r.contains_pt px py) := by
  unfold SrcRect.contains_pt
  infer_instance

/-- Axis separation of two tiles, a decidable sufficient criterion for
their source rects sharing no pixel. -/
def SrcRect.separated (a b : SrcRect) : Bool :=
  (a.x + a.w ≤ b.x) || (b.x + b.w ≤ a.x) || (a.y + a.h ≤ b.y) || (b.y + b.h ≤ a.y)

/-- `split_image` (image_lib.py lines 223-247), tracking each tile's source
rect; `w, h` are the image's dimensions, and the argument order
`(y_pieces, x_pieces)` follows the source.  The outer loop runs over
`x in range(x_pieces)`, the inner over `y in range(y_pieces)`, and the tile
rect is `(y * piece_width, x * piece_height, piece_width, piece_height)`
with the piece sizes obtained by integer division.  (The optional
`target_size` rescale changes only the output surface, not the source
rect, and is not tracked.) -/
def split_image (w h y_pieces x_pieces : ℕ) : List SrcRect :=
  let piece_width := w / x_pieces
  let piece_height := h / y_pieces
  (List.range x_pieces).flatMap fun x =>
    (List.range y_pieces).map fun y =>
      ⟨y * piece_width, x * piece_height, piece_width, piece_height⟩

/-! ## image_lib.py : sequence_animator_factory_from_file -/

/-- Python `str.split(sep)` for a one-character separator. -/
def split_on_char (c : Char) : List Char → List (List Char)
  | [] => [[]]
  | x :: xs =>
    let rest := split_on_char c xs
    if x = c then [] :: rest
    else
      match rest with
      | [] => [[x]]
      | hd :: tl => (x :: hd) :: tl

/-- `os.path.splitext(path)[0]`: the path with its final extension (the
part from the last dot on) removed. -/
def splitext_root (path : List Char) : List Char :=
  let pieces := split_on_char '.' path
  if pieces.length ≤ 1 then path else List.intercalate ['.'] pieces.dropLast

/-- Python `str.rsplit(sep, 1)` for a one-character separator: at most one
split, taken at the last occurrence. -/
def rsplit_once (c : Char) (l : List Char) : List (List Char) :=
  let pieces := split_on_char c l
  if pieces.length ≤ 1 then [l]
  else [List.intercalate [c] pieces.dropLast, pieces.getLastD []]

/-- Python `int(s)` for the nonnegative decimal strings grid suffixes use;
`none` models the `ValueError` on a non-numeric string. -/
def parse_int (l : List Char) : Option ℕ :=
  if l ≠ [] ∧ l.all Char.isDigit then
    some (l.foldl (fun acc d => acc * 10 + (d.toNat - 48)) 0)
  else none

/-- `sequence_animator_factory_from_file` (image_lib.py lines 269-290).
The local variables `row`, `col` are assigned only inside the
`grid_size is None` inference block; `.ok none` for `rc` models the state
in which they were never assigned, so that the `split_image(..., row, col,
...)` call at line 289 raises a name error.  `image_w, image_h` are the
dimensions of the image loaded from `image_path`; the returned factory
data is the tile list and the interval. -/
def sequence_animator_factory_from_file (image_path : List Char)
    (grid_size : Option (ℕ × ℕ)) (image_w image_h : ℕ) (interval : ℕ) :
    Except PyErr (List SrcRect × ℕ) :=
  let rc : Except PyErr (Option (ℕ × ℕ)) :=
    match grid_size with
    | some _ => .ok none
    | none =>
      let file_name_pieces := rsplit_once '_' (splitext_root image_path)
      if file_name_pieces.length = 2 then
        let gs := split_on_char 'x' (file_name_pieces.getLastD [])
        if gs.length = 2 then
          match parse_int (gs.getD 0 []), parse_int (gs.getD 1 []) with
          | some r, some c => .ok (some (r, c))
          | _, _ => .error .valueError
        else .ok none
      else .ok none
  match rc with
  | .error e => .error e
  | .ok none => .error (.nameError "row")
  | .ok (some (r, c)) => .ok (split_image image_w image_h r c, interval)

/-! ## Theorems -/

/-- **C8.** Once a target is held in the bullet's target slot,
`_find_target` returns without change: re-acquisition can only occur after
the slot becomes empty. -/
theorem find_target_keeps_held_target (strat : ShootgingStrategy) (t : ℤ × ℤ)
    (self_center : ℤ × ℤ) (pool : List (ℤ × ℤ)) :
    find_target strat (some t) self_center pool = some t := by
  simp [find_target]

/-- **C9.** `ShootingCapability.create_bullet`: with a direction of negative
horizontal component the spawned bullet's initial position is
`(position.x - bullet_image_width, position.y)`; with a non-negative
horizontal component the given position is used unchanged. -/
theorem create_bullet_spawn_position (w : ℕ) (position : ℤ × ℤ) (direction : ℚ × ℚ) :
    (direction.1 < 0 →
      create_bullet_position w position direction = (position.1 - w, position.2)) ∧
    (0 ≤ direction.1 →
      create_bullet_position w position direction = position) := by
  constructor
  · intro h
    simp [create_bullet_position, h]
  · intro h
    simp [create_bullet_position, not_lt.mpr h]

/-- Witness for C9 at image width 32, position (500, 700), directions
(-10, 0) and (10, 0). -/
theorem create_bullet_spawn_position_witness :
    create_bullet_position 32 (500, 700) (-10, 0) = (468, 700) ∧
    create_bullet_position 32 (500, 700) (10, 0) = (500, 700) :=
  ⟨by
    have h := (create_bullet_spawn_position 32 (500, 700) (-10, 0)).1 (by norm_num)
    simpa using h,
   (create_bullet_spawn_position 32 (500, 700) (10, 0)).2 (by norm_num)⟩

/-- **C1.** `MainBoard.create_targets`: on a frame whose `randint(0, 70)`
draw is nonzero nothing is added; on a draw of 0, with the position draw
`x ∈ [10, 1190]` (`= [margin, display_width - margin]`) and the velocity
draw `v ∈ [1, 5]`, exactly one new target is appended to both the targets
and the all-sprites groups, with rect anchored at `(x, 10)`, size 50x50,
velocity `(0, v)` and boundary the full display rect. -/
theorem create_targets_spawn (r x v : ℕ) (targets all_sprites : List Target)
    (hr : r ≤ 70) (hx1 : 10 ≤ x) (hx2 : x ≤ 1190) (hv1 : 1 ≤ v) (hv2 : v ≤ 5) :
    (r ≠ 0 → create_targets r x v targets all_sprites = (targets, all_sprites)) ∧
    (r = 0 → ∃ t : Target,
      create_targets r x v targets all_sprites = (targets ++ [t], all_sprites ++ [t]) ∧
      t.rect = ⟨(x : ℤ), 10, 50, 50⟩ ∧
      t.velocity = (0, (v : ℤ)) ∧
      t.boundary = ⟨0, 0, 1200, 800⟩ ∧
      t.kill_if_out_of_boundary = true ∧
      (10 : ℤ) ≤ (x : ℤ) ∧ (x : ℤ) ≤ 1190 ∧ (1 : ℤ) ≤ (v : ℤ) ∧ (v : ℤ) ≤ 5) := by
  constructor
  · intro h
    simp [create_targets, h]
  · intro h
    subst h
    refine ⟨Target.make nectarine_image ⟨0, 0, display_size.1, display_size.2⟩
        ((x : ℤ), 10) (50, 50) (0, (v : ℤ)),
      by simp [create_targets], ?_, ?_, ?_, ?_, ?_, ?_, ?_, ?_⟩
    · rfl
    · rfl
    · simp [Target.make, display_size]
    · rfl
    · exact_mod_cast hx1
    · exact_mod_cast hx2
    · exact_mod_cast hv1
    · exact_mod_cast hv2

/-- Witness for C1: draws r = 0, x = 600, v = 3 on empty groups. -/
theorem create_targets_spawn_witness :
    ∃ t : Target, create_targets 0 600 3 [] [] = ([t], [t]) ∧
      t.rect = ⟨600, 10, 50, 50⟩ ∧ t.velocity = (0, 3) := by
  obtain ⟨t, h1, h2, h3, -⟩ :=
    (create_targets_spawn 0 600 3 [] [] (by norm_num) (by norm_num) (by norm_num)
      (by norm_num) (by norm_num)).2 rfl
  exact ⟨t, by simpa using h1, h2, h3⟩

/-- **C2.** `image_lib` defines no `images_from_file`, so every construction
of `MainCharacter` raises `AttributeError` at the lookup
`image_lib.images_from_file`; the error propagates through
`MainBoard.__init__` and `main`, and the frame loop is never entered. -/
theorem main_character_init_attribute_error :
    main_character_init = .error (.attributeError "image_lib" "images_from_file") ∧
    main_board_init = .error (.attributeError "image_lib" "images_from_file") ∧
    game_main = .error (.attributeError "image_lib" "images_from_file") := by
  refine ⟨?_, ?_, ?_⟩ <;> rfl

/-- **C3, counterexample.** With pool centers (0,0), (100,0), (10,10) and
the bullet's center at (0,0), `_find_target` under CLOSEST_DISTANCE selects
the co-located target at (0,0) (Euclidean distance 0), not the one at
(10,10): the claim's selected target is wrong. -/
theorem find_target_closest_distance_colocated :
    find_target .CLOSEST_DISTANCE none (0, 0) [(0, 0), (100, 0), (10, 10)] = some (0, 0) ∧
    (some ((0 : ℤ), (0 : ℤ)) ≠ some ((10 : ℤ), (10 : ℤ))) := by
  have h0 : vlen ((0 : ℤ) - 0, (0 : ℤ) - 0) = 0 := by
    simp [vlen]
  have h1 : ¬ vlen ((100 : ℤ) - 0, (0 : ℤ) - 0) < vlen ((0 : ℤ) - 0, (0 : ℤ) - 0) := by
    rw [h0]
    exact not_lt.mpr (Real.sqrt_nonneg _)
  have h2 : ¬ vlen ((10 : ℤ) - 0, (10 : ℤ) - 0) < vlen ((0 : ℤ) - 0, (0 : ℤ) - 0) := by
    rw [h0]
    exact not_lt.mpr (Real.sqrt_nonneg _)
  refine ⟨?_, by decide⟩
  simp only [find_target, pyMin, List.foldl_cons, List.foldl_nil, Option.isSome_none,
    Bool.false_eq_true, if_false]
  rw [if_neg (by simp)]
  rw [if_neg h1, if_neg h2]

/-- **C3, amended.** Under CLOSEST_DISTANCE the bullet acquires the
Euclidean-nearest target: with the pool (0,0), (100,0), (10,10) and the
bullet at (0,0) that is the co-located target (0,0); with the co-located
target removed (pool (100,0), (10,10)) it is (10,10), not (100,0). -/
theorem find_target_closest_distance_euclidean :
    find_target .CLOSEST_DISTANCE none (0, 0) [(0, 0), (100, 0), (10, 10)] = some (0, 0) ∧
    find_target .CLOSEST_DISTANCE none (0, 0) [(100, 0), (10, 10)] = some (10, 10) := by
  have h0 : vlen ((0 : ℤ) - 0, (0 : ℤ) - 0) = 0 := by
    simp [vlen]
  have h1 : ¬ vlen ((100 : ℤ) - 0, (0 : ℤ) - 0) < vlen ((0 : ℤ) - 0, (0 : ℤ) - 0) := by
    rw [h0]
    exact not_lt.mpr (Real.sqrt_nonneg _)
  have h2 : ¬ vlen ((10 : ℤ) - 0, (10 : ℤ) - 0) < vlen ((0 : ℤ) - 0, (0 : ℤ) - 0) := by
    rw [h0]
    exact not_lt.mpr (Real.sqrt_nonneg _)
  have h3 : vlen ((10 : ℤ) - 0, (10 : ℤ) - 0) < vlen ((100 : ℤ) - 0, (0 : ℤ) - 0) := by
    apply vlen_lt_vlen
    norm_num
  constructor
  · simp only [find_target, pyMin, List.foldl_cons, List.foldl_nil, Option.isSome_none,
      Bool.false_eq_true, if_false]
    rw [if_neg (by simp)]
    rw [if_neg h1, if_neg h2]
  · simp only [find_target, pyMin, List.foldl_cons, List.foldl_nil, Option.isSome_none,
      Bool.false_eq_true, if_false]
    rw [if_neg (by simp)]
    rw [if_pos h3]

/-- **C6, counterexample.** `change_to_direction` with current velocity of
length 10 raises `ValueError` (from `scale_to_length`) on the zero direction
vector instead of producing a velocity of length 10: the claim fails for a
new direction of magnitude 0. -/
theorem change_to_direction_zero_direction :
    vec_length (10, 0) = 10 ∧
    change_to_direction (10, 0) (0, 0) = .error .valueError := by
  constructor
  · exact vec_length_eval 10 0 10 (by norm_num) (by norm_num)
  · have h : vec_length ((0 : ℝ), (0 : ℝ)) = 0 := (vec_length_eq_zero_iff _).mpr rfl
    simp only [change_to_direction, scale_to_length]
    rw [if_pos h]

/-- **C6, amended.** `change_to_direction` preserves speed for every
nonzero new direction: if the current velocity has length 10 then the
stored velocity has length exactly 10, regardless of the (nonzero)
magnitude of the new direction. -/
theorem change_to_direction_preserves_speed (velocity direction : ℝ × ℝ)
    (hv : vec_length velocity = 10) (hd : direction ≠ (0, 0)) :
    ∃ v2, change_to_direction velocity direction = .ok v2 ∧ vec_length v2 = 10 := by
  have hL0 : vec_length direction ≠ 0 := fun h => hd ((vec_length_eq_zero_iff _).mp h)
  have hLpos : 0 < vec_length direction :=
    lt_of_le_of_ne (Real.sqrt_nonneg _) (Ne.symm hL0)
  refine ⟨(direction.1 * (10 / vec_length direction),
           direction.2 * (10 / vec_length direction)), ?_, ?_⟩
  · rw [change_to_direction, scale_to_length, if_neg hL0, hv]
  · have hsq : (direction.1 * (10 / vec_length direction)) ^ 2 +
        (direction.2 * (10 / vec_length direction)) ^ 2 =
        (10 / vec_length direction) ^ 2 * (direction.1 ^ 2 + direction.2 ^ 2) := by
      ring
    rw [vec_length]
    simp only
    rw [hsq, Real.sqrt_mul (sq_nonneg _),
      Real.sqrt_sq (le_of_lt (div_pos (by norm_num) hLpos))]
    have : Real.sqrt (direction.1 ^ 2 + direction.2 ^ 2) = vec_length direction := rfl
    rw [this]
    field_simp

/-- Witness for the amended C6 at velocity (10, 0) and direction (3, 4). -/
theorem change_to_direction_preserves_speed_witness :
    ∃ v2, change_to_direction (10, 0) (3, 4) = .ok v2 ∧ vec_length v2 = 10 :=
  change_to_direction_preserves_speed (10, 0) (3, 4)
    (vec_length_eval 10 0 10 (by norm_num) (by norm_num))
    (by
      intro h
      have := congrArg Prod.fst h
      norm_num at this)

/-- **C4.** `FilesAnimator` does not honor its loop-count configuration:
`update` never reads the stored `loops` (first conjunct: the field is
carried through unchanged and never consulted), and with
`image_files = [f0, f1]`, `display_time = 2`, `transition_time = 1` and
`loops = None` the fourth update after `start` — right after one full pass
over the two files — begins a transition back to the first file
(`next_image` becomes file 0 and a transition starts), although
`loops = None` is documented as "no loop". -/
theorem files_animator_ignores_loops :
    (∀ (s : FilesAnimator) (l : Option ℤ),
      FilesAnimator.update { s with loops := l } =
        { FilesAnimator.update s with loops := l }) ∧
    (FilesAnimator.update^[4]
        (FilesAnimator.start (FilesAnimator.init [0, 1] 2 1 none))).next_image = some 0 ∧
    (FilesAnimator.update^[4]
        (FilesAnimator.start (FilesAnimator.init [0, 1] 2 1 none))).transition_index =
      some 0 := by
  refine ⟨?_, by decide, by decide⟩
  intro s l
  obtain ⟨f, dt, tt, lp, img, nx, ix, ti⟩ := s
  cases ix <;> cases ti <;> simp [FilesAnimator.update] <;> split_ifs <;> rfl

/-- **C5.** `sequence_animator_factory_from_file` never uses an explicitly
provided `grid_size`: with `grid_size` set, the inference block is
skipped, so the locals `row`/`col` are unbound at the `split_image(...,
row, col, ...)` call and the function raises a name error instead of
splitting per the provided grid (first conjunct, for every path and every
provided grid).  Suffix inference runs only when `grid_size` is unset
(second conjunct: with no grid, the `_4x9` suffix of the character sheet
name is parsed and the image is split 4x9). -/
theorem sequence_animator_factory_grid_size_unused :
    (∀ (path : List Char) (gs : ℕ × ℕ) (w h interval : ℕ),
      sequence_animator_factory_from_file path (some gs) w h interval =
        .error (.nameError "row")) ∧
    (∀ (w h interval : ℕ),
      sequence_animator_factory_from_file ("image/SsmWh_4x9.png".toList) none w h interval =
        .ok (split_image w h 4 9, interval)) :=
  ⟨fun _ _ _ _ _ => rfl, fun _ _ _ => rfl⟩

lemma contains_pt_mk (a b w h px py : ℕ) :
    SrcRect.contains_pt ⟨a, b, w, h⟩ px py ↔
      (a ≤ px ∧ px < a + w ∧ b ≤ py ∧ py < b + h) := Iff.rfl

lemma separated_imp_disjoint (a b : SrcRect) (h : a.separated b = true) :
    ∀ px py : ℕ, ¬(a.contains_pt px py ∧ b.contains_pt px py) := by
  intro px py hc
  obtain ⟨⟨h1, h2, h3, h4⟩, h5, h6, h7, h8⟩ := hc
  simp only [SrcRect.separated, Bool.or_eq_true, decide_eq_true_eq] at h
  omega

lemma flatMap_range_map_length {α : Type} (f : ℕ → ℕ → α) (n m : ℕ) :
    ((List.range n).flatMap fun x => (List.range m).map (f x)).length = n * m := by
  induction n with
  | zero => simp
  | succ n ih =>
    rw [List.range_succ, List.flatMap_append, List.length_append, ih]
    simp [Nat.succ_mul]

lemma flatMap_range_map_getElem {α : Type} (f : ℕ → ℕ → α) (n m i j : ℕ)
    (hi : i < n) (hj : j < m) :
    ((List.range n).flatMap fun x => (List.range m).map (f x))[i * m + j]? =
      some (f i j) := by
  induction n with
  | zero => omega
  | succ n ih =>
    rw [List.range_succ, List.flatMap_append, List.getElem?_append]
    by_cases hcase : i < n
    · have hlt : i * m + j <
          ((List.range n).flatMap fun x => List.map (f x) (List.range m)).length := by
        rw [flatMap_range_map_length]
        calc i * m + j < i * m + m := by omega
          _ = (i + 1) * m := by ring
          _ ≤ n * m := Nat.mul_le_mul_right m (by omega)
      rw [if_pos hlt]
      exact ih hcase
    · have hieq : i = n := by omega
      subst hieq
      have hge : ¬ i * m + j <
          ((List.range i).flatMap fun x => List.map (f x) (List.range m)).length := by
        rw [flatMap_range_map_length]
        exact Nat.not_lt.mpr (Nat.le_add_right _ _)
      rw [if_neg hge, flatMap_range_map_length]
      have hsub : i * m + j - i * m = j := by omega
      rw [hsub]
      simp [List.getElem?_map, List.getElem?_range hj]

/-- **C10.** `split_image` on a 400x400 image with 4 rows and 4 columns
returns exactly 16 tiles, each 100x100, whose source rects cover the
source image exactly once (every pixel lies in some tile, and no pixel
lies in two distinct tiles); in general, the returned sequence is ordered
with outer index the slot `i` in `0..x_pieces-1` and inner index the slot
`j` in `0..y_pieces-1`, the tile at position `i * y_pieces + j` having
source rect `(j * piece_width, i * piece_height)` with the piece sizes
given by integer division of the image dimensions. -/
theorem split_image_tiling :
    (split_image 400 400 4 4).length = 16 ∧
    (∀ r ∈ split_image 400 400 4 4, r.w = 100 ∧ r.h = 100) ∧
    (∀ px py : ℕ, px < 400 → py < 400 →
      ∃ r ∈ split_image 400 400 4 4, r.contains_pt px py) ∧
    List.Pairwise (fun a b => ∀ px py : ℕ,
      ¬(a.contains_pt px py ∧ b.contains_pt px py)) (split_image 400 400 4 4) ∧
    (∀ (w h y_pieces x_pieces i j : ℕ), i < x_pieces → j < y_pieces →
      (split_image w h y_pieces x_pieces)[i * y_pieces + j]? =
        some ⟨j * (w / x_pieces), i * (h / y_pieces), w / x_pieces, h / y_pieces⟩) := by
  refine ⟨by decide, by decide, ?_, ?_, ?_⟩
  · intro px py hx hy
    have hx4 : px < 100 ∨ (100 ≤ px ∧ px < 200) ∨ (200 ≤ px ∧ px < 300) ∨
        (300 ≤ px ∧ px < 400) := by omega
    have hy4 : py < 100 ∨ (100 ≤ py ∧ py < 200) ∨ (200 ≤ py ∧ py < 300) ∨
        (300 ≤ py ∧ py < 400) := by omega
    rcases hx4 with h1 | h1 | h1 | h1 <;> rcases hy4 with h2 | h2 | h2 | h2
    · exact ⟨⟨0, 0, 100, 100⟩, by decide, (contains_pt_mk 0 0 100 100 px py).mpr (by omega)⟩
    · exact ⟨⟨0, 100, 100, 100⟩, by decide, (contains_pt_mk 0 100 100 100 px py).mpr (by omega)⟩
    · exact ⟨⟨0, 200, 100, 100⟩, by decide, (contains_pt_mk 0 200 100 100 px py).mpr (by omega)⟩
    · exact ⟨⟨0, 300, 100, 100⟩, by decide, (contains_pt_mk 0 300 100 100 px py).mpr (by omega)⟩
    · exact ⟨⟨100, 0, 100, 100⟩, by decide, (contains_pt_mk 100 0 100 100 px py).mpr (by omega)⟩
    · exact ⟨⟨100, 100, 100, 100⟩, by decide, (contains_pt_mk 100 100 100 100 px py).mpr (by omega)⟩
    · exact ⟨⟨100, 200, 100, 100⟩, by decide, (contains_pt_mk 100 200 100 100 px py).mpr (by omega)⟩
    · exact ⟨⟨100, 300, 100, 100⟩, by decide, (contains_pt_mk 100 300 100 100 px py).mpr (by omega)⟩
    · exact ⟨⟨200, 0, 100, 100⟩, by decide, (contains_pt_mk 200 0 100 100 px py).mpr (by omega)⟩
    · exact ⟨⟨200, 100, 100, 100⟩, by decide, (contains_pt_mk 200 100 100 100 px py).mpr (by omega)⟩
    · exact ⟨⟨200, 200, 100, 100⟩, by decide, (contains_pt_mk 200 200 100 100 px py).mpr (by omega)⟩
    · exact ⟨⟨200, 300, 100, 100⟩, by decide, (contains_pt_mk 200 300 100 100 px py).mpr (by omega)⟩
    · exact ⟨⟨300, 0, 100, 100⟩, by decide, (contains_pt_mk 300 0 100 100 px py).mpr (by omega)⟩
    · exact ⟨⟨300, 100, 100, 100⟩, by decide, (contains_pt_mk 300 100 100 100 px py).mpr (by omega)⟩
    · exact ⟨⟨300, 200, 100, 100⟩, by decide, (contains_pt_mk 300 200 100 100 px py).mpr (by omega)⟩
    · exact ⟨⟨300, 300, 100, 100⟩, by decide, (contains_pt_mk 300 300 100 100 px py).mpr (by omega)⟩
  · have hsep : List.Pairwise (fun a b => SrcRect.separated a b = true)
        (split_image 400 400 4 4) := by decide
    exact hsep.imp fun h => separated_imp_disjoint _ _ h
  · intro w h y_pieces x_pieces i j hi hj
    have h := flatMap_range_map_getElem
      (fun x y => (⟨y * (w / x_pieces), x * (h / y_pieces),
        w / x_pieces, h / y_pieces⟩ : SrcRect)) x_pieces y_pieces i j hi hj
    simpa [split_image] using h

/-- Witness for C10: the cover at pixel (150, 250) and the general ordering
at 400x400, 4x4, outer slot 2, inner slot 1. -/
theorem split_image_tiling_witness :
    (∃ r ∈ split_image 400 400 4 4, r.contains_pt 150 250) ∧
    (split_image 400 400 4 4)[2 * 4 + 1]? = some ⟨100, 200, 100, 100⟩ := by
  refine ⟨split_image_tiling.2.2.1 150 250 (by norm_num) (by norm_num), ?_⟩
  have h := split_image_tiling.2.2.2.2 400 400 4 4 2 1 (by norm_num) (by norm_num)
  simpa using h

lemma bullet_dying_within_block (k : ℕ) (q : List ℕ) (a : ℕ) (v : ℤ × ℤ) :
    ∀ t : ℕ, t < k →
      (bullet_update false)^[t] ⟨v, true, ⟨some 0, k, q, some a⟩⟩ =
        ⟨v, true, ⟨some (t : ℤ), k, q, some a⟩⟩ := by
  intro t
  induction t with
  | zero => intro _; rfl
  | succ t ih =>
    intro ht
    rw [Function.iterate_succ_apply', ih (by omega)]
    have h1 : ((t : ℤ) + 1) % (k : ℤ) = (t : ℤ) + 1 :=
      Int.emod_eq_of_lt (by positivity) (by exact_mod_cast ht)
    have h2 : ((t : ℤ) + 1) ≠ 0 := by positivity
    simp [bullet_update, SeqAnim.update, h1, h2]

lemma bullet_dying_block_nil (k : ℕ) (hk : 1 ≤ k) (a : ℕ) (v : ℤ × ℤ) :
    (bullet_update false)^[k] ⟨v, true, ⟨some 0, k, [], some a⟩⟩ =
      ⟨v, false, ⟨some 0, k, [], none⟩⟩ := by
  obtain ⟨k2, rfl⟩ : ∃ k2, k = k2 + 1 := ⟨k - 1, by omega⟩
  rw [Function.iterate_succ_apply', bullet_dying_within_block (k2 + 1) [] a v k2 (by omega)]
  simp [bullet_update, SeqAnim.update]

lemma bullet_dying_block_cons (k : ℕ) (hk : 1 ≤ k) (b : ℕ) (q2 : List ℕ)
    (a : ℕ) (v : ℤ × ℤ) :
    (bullet_update false)^[k] ⟨v, true, ⟨some 0, k, b :: q2, some a⟩⟩ =
      ⟨v, true, ⟨some 0, k, q2, some b⟩⟩ := by
  obtain ⟨k2, rfl⟩ : ∃ k2, k = k2 + 1 := ⟨k - 1, by omega⟩
  rw [Function.iterate_succ_apply',
    bullet_dying_within_block (k2 + 1) (b :: q2) a v k2 (by omega)]
  simp [bullet_update, SeqAnim.update]

lemma bullet_dying_run (k : ℕ) (hk : 1 ≤ k) (q : List ℕ) (a : ℕ) (v : ℤ × ℤ) :
    (∀ t, t < (q.length + 1) * k →
      ((bullet_update false)^[t] ⟨v, true, ⟨some 0, k, q, some a⟩⟩).alive = true) ∧
    ((bullet_update false)^[(q.length + 1) * k]
      ⟨v, true, ⟨some 0, k, q, some a⟩⟩).alive = false := by
  induction q generalizing a v with
  | nil =>
    constructor
    · intro t ht
      rw [bullet_dying_within_block k [] a v t (by simpa using ht)]
    · have hlen : (([] : List ℕ).length + 1) * k = k := by simp
      rw [hlen, bullet_dying_block_nil k hk a v]
  | cons b q2 ih =>
    have hsplit : ((b :: q2).length + 1) * k = (q2.length + 1) * k + k := by
      simp [List.length_cons]
      ring
    constructor
    · intro t ht
      by_cases hcase : t < k
      · rw [bullet_dying_within_block k (b :: q2) a v t hcase]
      · have hkt : k ≤ t := Nat.le_of_not_lt hcase
        have ht2 : t - k < (q2.length + 1) * k := by
          rw [hsplit] at ht
          omega
        have hteq : t = (t - k) + k := by omega
        rw [hteq, Function.iterate_add_apply, bullet_dying_block_cons k hk b q2 a v]
        exact (ih b v).1 (t - k) ht2
    · rw [hsplit, Function.iterate_add_apply, bullet_dying_block_cons k hk b q2 a v]
      exact (ih b v).2

/-- **C7.** A bullet configured with a dying effect, on the update in
which it collides: its velocity becomes the zero vector and it is not
destroyed on that frame; it stays alive through every one of the following
`sequence length x interval - 1` updates and is destroyed exactly on the
`sequence length x interval`-th update after the collision, when the
animator exhausts its sequence and kills the owning bullet.  (`hk`: the
interval is positive, else the source's `%=` is a division by zero; `hne`:
the dying animation has at least one frame, else `die_at` exhausts the
sequence and kills the bullet on the colliding frame itself.) -/
theorem bullet_dying_effect_lifecycle (imgs : List ℕ) (k : ℕ) (v : ℤ × ℤ)
    (hk : 1 ≤ k) (hne : imgs ≠ []) :
    (bullet_update true ⟨v, true, ⟨none, k, imgs, none⟩⟩).velocity = (0, 0) ∧
    (bullet_update true ⟨v, true, ⟨none, k, imgs, none⟩⟩).alive = true ∧
    (∀ t, t < imgs.length * k →
      ((bullet_update false)^[t]
        (bullet_update true ⟨v, true, ⟨none, k, imgs, none⟩⟩)).alive = true) ∧
    ((bullet_update false)^[imgs.length * k]
      (bullet_update true ⟨v, true, ⟨none, k, imgs, none⟩⟩)).alive = false := by
  cases imgs with
  | nil => exact absurd rfl hne
  | cons a q =>
    have hb1 : bullet_update true ⟨v, true, ⟨none, k, a :: q, none⟩⟩ =
        ⟨(0, 0), true, ⟨some 0, k, q, some a⟩⟩ := by
      simp [bullet_update, SeqAnim.start, SeqAnim.update]
    rw [hb1]
    have hlen : (a :: q).length * k = (q.length + 1) * k := by simp
    refine ⟨rfl, rfl, ?_, ?_⟩
    · intro t ht
      exact (bullet_dying_run k hk q a (0, 0)).1 t (by rw [← hlen]; exact ht)
    · rw [hlen]
      exact (bullet_dying_run k hk q a (0, 0)).2

/-- Witness for C7: one-frame dying animation at interval 2; the bullet
survives the colliding frame and is destroyed on the second update after
the collision. -/
theorem bullet_dying_effect_lifecycle_witness :
    ((bullet_update false)^[2]
      (bullet_update true ⟨(3, 4), true, ⟨none, 2, [5], none⟩⟩)).alive = false := by
  have h := (bullet_dying_effect_lifecycle [5] 2 (3, 4) (by norm_num) (by simp)).2.2.2
  simpa using h
